import Mathlib

/-!
Verification development for the TiKV-backed storage layer of the policy
engine (package `tikv`: `storage/tikv/tikv.go` and the accompanying
transaction file).  The Go code is shallowly embedded: documents are a
JSON-like inductive `Value`, the backend transactional key-value engine is
modelled as an association list sorted in byte-lexicographic key order, and
every fallible store operation returns an `Outcome` that distinguishes a
normal Go error return from a runtime panic.
-/

namespace Tikv

/-- JSON-like document values (`interface{}` decoded from JSON in Go):
null, booleans, numbers, strings, arrays and objects. Numbers are modelled
as integers; the distinction scalar/array/object is all the code inspects. -/
inductive Value : Type
  | null : Value
  | bool (b : Bool) : Value
  | num (n : Int) : Value
  | str (s : String) : Value
  | arr (elems : List Value) : Value
  | obj (fields : List (String × Value)) : Value

/-- `value.(map[string]interface{})` type assertion: succeeds exactly on objects. -/
def Value.isObj : Value → Bool
  | .obj _ => true
  | _ => false

/-- Error codes of `storage.Error` used by this package. -/
inductive ErrCode : Type
  | NotFoundErr
  | InvalidPatchErr
  | InvalidTransactionErr
deriving DecidableEq, Repr

/-- A Go error value: either a typed `*storage.Error` or a plain error built
with `fmt.Errorf` (as in the `"Not Implemented"` stubs). -/
inductive Error : Type
  | storage (code : ErrCode) (message : String) : Error
  | generic (message : String) : Error
deriving DecidableEq, Repr

/-- Result of a Go call that may return normally, return an error, or panic. -/
inductive Outcome (α : Type) : Type
  | ok (a : α) : Outcome α
  | err (e : Error) : Outcome α
  | panicked (msg : String) : Outcome α
deriving DecidableEq

/-- Message constants from `tikv.go`. -/
def doesNotExistMsg : String := "document does not exist"

def rootMustBeObjectMsg : String := "root must be object"

def rootCannotBeRemovedMsg : String := "root cannot be removed"

def outOfRangeMsg : String := "array index out of range"

def arrayIndexTypeMsg : String := "array index must be integer"

/-- `invalidPatchError`: a `storage.Error` with code `InvalidPatchErr`. -/
def invalidPatchError (msg : String) : Error :=
  .storage .InvalidPatchErr msg

/-- `storage.Path` is a sequence of string segments. -/
abbrev Path : Type := List String

/-- `storage.Path.String()`: `"/"` for the empty path, otherwise `/`-joined
segments with a leading slash. -/
def pathString (p : Path) : String :=
  "/" ++ String.intercalate "/" p

/-- `notFoundErrorHint`: NotFound error whose message is the path followed
by a hint. -/
def notFoundErrorHint (p : Path) (hint : String) : Error :=
  .storage .NotFoundErr (pathString p ++ ": " ++ hint)

/-- `notFoundErrorf("policy id %q", id)` (quoting of exotic characters in
`id` elided; only the `NotFoundErr` code is inspected by callers). -/
def policyNotFoundError (id : String) : Error :=
  .storage .NotFoundErr ("policy id \x22" ++ id ++ "\x22")

/-- `storage.PatchOp`. -/
inductive PatchOp : Type
  | add
  | remove
  | replace
deriving DecidableEq, Repr

/-! ### Backend key-value model

The TiKV engine is an external collaborator assumed to provide get/set/
delete and iteration in byte-lexicographic key order over a transaction's
read-your-writes view.  Keys are strings, values are byte sequences. -/

/-- Policy blobs: opaque byte sequences. -/
abbrev Bytes : Type := List Nat

/-- Byte-lexicographic strict order on character lists (UTF-8 byte order
coincides with code-point order). -/
def bytesLt : List Char → List Char → Bool
  | [], [] => false
  | [], _ :: _ => true
  | _ :: _, [] => false
  | a :: as, b :: bs =>
    if a.toNat < b.toNat then true
    else if b.toNat < a.toNat then false
    else bytesLt as bs

/-- Byte-lexicographic strict order on keys. -/
def keyLt (a b : String) : Bool := bytesLt a.data b.data

/-- A transaction's key-value view: association list sorted by `keyLt`,
keys unique. -/
abbrev KV : Type := List (String × Bytes)

/-- Backend `Get`: point lookup, `none` models `kv.ErrNotExist`. -/
def kvGet (st : KV) (k : String) : Option Bytes :=
  match st.find? (fun p => p.1 = k) with
  | some p => some p.2
  | none => none

/-- Backend `Set`: insert or overwrite, keeping the list sorted. -/
def kvSet : KV → String → Bytes → KV
  | [], k, v => [(k, v)]
  | (k', v') :: rest, k, v =>
    if keyLt k k' then (k, v) :: (k', v') :: rest
    else if k = k' then (k, v) :: rest
    else (k', v') :: kvSet rest k v

/-- Backend `Delete`: removes the key if present (the TiKV transaction
buffer records a deletion unconditionally). -/
def kvDelete (st : KV) (k : String) : KV :=
  st.filter (fun p => ¬ p.1 = k)

/-- Backend `Iter(start, nil)`: every entry with key `≥ start`, in key
order, up to the END of the key space (no upper bound). -/
def kvIterFrom (st : KV) (start : String) : KV :=
  st.filter (fun p => ¬ keyLt p.1 start)

/-! ### Transaction and Store -/

/-- The `transaction` struct wraps one TiKV transaction; `view` is the
backend transaction's read-your-writes view.  `producer` is a provenance
label recording which store's `NewTransaction` created the handle; no field
of the Go struct carries it and no operation reads it — it exists only to
state which store a handle came from. -/
structure Txn : Type where
  producer : Nat
  view : KV
deriving DecidableEq

/-- The dynamic type of a `storage.Transaction` argument: either this
package's `*transaction` or a value of some other concrete type. -/
inductive TxnArg : Type
  | tikv (t : Txn) : TxnArg
  | foreign (typeName : String) : TxnArg

/-- The `store` struct: `sid` is a provenance label identifying the store
instance (counterpart of `producer` on `Txn`), `committed` the backend's
committed key space, `triggers` the registered trigger handles and
`nextHandle` a fresh-handle counter. -/
structure Store : Type where
  sid : Nat
  committed : KV
  triggers : List Nat
  nextHandle : Nat
deriving DecidableEq

/-- The error built by `underlyingTxn` for a foreign transaction type:
`fmt.Sprintf("unexpected transaction type %T", txn)`. -/
def invalidTxnError (typeName : String) : Error :=
  .storage .InvalidTransactionErr ("unexpected transaction type " ++ typeName)

/-- `store.underlyingTxn`: type assertion `txn.(*transaction)`; any other
dynamic type yields an `InvalidTransactionErr`. -/
def underlyingTxn (txn : TxnArg) : Except Error Txn :=
  match txn with
  | .tikv t => .ok t
  | .foreign n => .error (invalidTxnError n)

/-- `store.NewTransaction`: begins a backend transaction whose view is the
committed snapshot. -/
def Store.NewTransaction (s : Store) : Txn :=
  { producer := s.sid, view := s.committed }

/-- `store.Read` (`tikv.go`): after the transaction type check it
unconditionally returns `nil, fmt.Errorf("Not Implemented")`. -/
def Store.Read (s : Store) (txn : TxnArg) (p : Path) : Outcome Value :=
  match underlyingTxn txn with
  | .error e => .err e
  | .ok _ => .err (.generic "Not Implemented")

/-- `transaction.updateRoot`: `Remove` at the root is rejected; otherwise
the value must be an object (`map[string]interface{}`); on success it
returns `nil` WITHOUT writing anything to the backend. -/
def updateRoot (op : PatchOp) (value : Value) : Outcome Unit :=
  if op = .remove then .err (invalidPatchError rootCannotBeRemovedMsg)
  else if ¬ value.isObj then .err (invalidPatchError rootMustBeObjectMsg)
  else .ok ()

/-- `store.Write` followed by `transaction.Write` on the EMPTY path: the
type check, the `util.RoundTrip` JSON round-trip (identity on JSON-like
values), then `updateRoot`.  The non-empty-path branch of
`transaction.Write` calls `newUpdate`, a function absent from the sources,
so only the root branch is embedded. -/
def Store.writeRoot (s : Store) (txn : TxnArg) (op : PatchOp) (value : Value) :
    Outcome Unit :=
  match underlyingTxn txn with
  | .error e => .err e
  | .ok _ => updateRoot op value

/-! ### Policy registry -/

/-- The key under which policy `id` is stored: `fmt.Sprintf("policies/%s", id)`. -/
def policyKey (id : String) : String := "policies/" ++ id

/-- `transaction.GetPolicy`: point lookup of `policies/<id>`; `kv.ErrNotExist`
is mapped to a NotFound error (any other backend error would fall through
and be swallowed, but the modelled backend only fails with ErrNotExist). -/
def txnGetPolicy (t : Txn) (id : String) : Outcome Bytes :=
  match kvGet t.view (policyKey id) with
  | some v => .ok v
  | none => .err (policyNotFoundError id)

/-- `transaction.UpsertPolicy`: unconditional backend `Set`. -/
def txnUpsertPolicy (t : Txn) (id : String) (bs : Bytes) : Txn :=
  { t with view := kvSet t.view (policyKey id) bs }

/-- `transaction.DeletePolicy`: unconditional backend `Delete`. -/
def txnDeletePolicy (t : Txn) (id : String) : Txn :=
  { t with view := kvDelete t.view (policyKey id) }

/-- `strings.Split(s, "/")` on the character list: at least one (possibly
empty) piece, a new piece after every separator. -/
def splitSlash : List Char → List (List Char)
  | [] => [[]]
  | c :: rest =>
    if c = '/' then [] :: splitSlash rest
    else
      match splitSlash rest with
      | piece :: pieces => (c :: piece) :: pieces
      | [] => [[c]]

/-- The loop body of `transaction.ListPolicies`: for each key,
`strings.Split(key, "/")[1]` is appended; a key without `/` makes the
index expression panic. -/
def listPoliciesLoop : KV → List String → Outcome (List String)
  | [], acc => .ok acc
  | (k, _) :: rest, acc =>
    match splitSlash k.data with
    | _ :: second :: _ => listPoliciesLoop rest (acc ++ [String.mk second])
    | _ => .panicked "runtime error: index out of range"

/-- `transaction.ListPolicies`: iterates the backend from key `"policies/"`
with NO upper bound (every key `≥ "policies/"` to the end of the key
space), collecting `Split(key, "/")[1]` for each visited key. -/
def txnListPolicies (t : Txn) : Outcome (List String) :=
  listPoliciesLoop (kvIterFrom t.view "policies/") []

/-- `store.GetPolicy`: type check, then the transaction-level lookup. -/
def Store.GetPolicy (s : Store) (txn : TxnArg) (id : String) : Outcome Bytes :=
  match underlyingTxn txn with
  | .error e => .err e
  | .ok t => txnGetPolicy t id

/-- `store.UpsertPolicy`: type check, then the transaction-level set; the
updated transaction state is returned explicitly. -/
def Store.UpsertPolicy (s : Store) (txn : TxnArg) (id : String) (bs : Bytes) :
    Outcome Txn :=
  match underlyingTxn txn with
  | .error e => .err e
  | .ok t => .ok (txnUpsertPolicy t id bs)

/-- `store.DeletePolicy`: type check, then the transaction-level delete. -/
def Store.DeletePolicy (s : Store) (txn : TxnArg) (id : String) : Outcome Txn :=
  match underlyingTxn txn with
  | .error e => .err e
  | .ok t => .ok (txnDeletePolicy t id)

/-- `store.ListPolicies`: type check, then the transaction-level listing. -/
def Store.ListPolicies (s : Store) (txn : TxnArg) : Outcome (List String) :=
  match underlyingTxn txn with
  | .error e => .err e
  | .ok t => txnListPolicies t

/-! ### Triggers, Commit, Abort -/

/-- `store.Register`: stores the config under a fresh handle (the callback
itself is irrelevant to control flow, so only handles are tracked). -/
def Store.Register (s : Store) : Store × Nat :=
  ({ s with triggers := s.triggers ++ [s.nextHandle],
            nextHandle := s.nextHandle + 1 }, s.nextHandle)

/-- `handle.Unregister`: deletes the handle from the trigger map
(a no-op for an unknown handle). -/
def Store.Unregister (s : Store) (h : Nat) : Store :=
  { s with triggers := s.triggers.filter (fun x => ¬ x = h) }

/-- `store.runOnCommitTriggers`: invokes `OnCommit` once for every
registered trigger; the result is the list of handles invoked. -/
def Store.runOnCommitTriggers (s : Store) : List Nat :=
  s.triggers

/-- `transaction.Commit`: unconditionally returns
`fmt.Errorf("Not Implemented")` without touching the backend. -/
def txnCommit (t : Txn) : Outcome Unit :=
  .err (.generic "Not Implemented")

/-- What a call to `store.Abort` did. -/
inductive AbortResult : Type
  | panicked (msg : String) : AbortResult
  | returned (rollbackIssued : Bool) (triggersInvoked : List Nat) : AbortResult
deriving DecidableEq

/-- `store.Abort`: on a failed type assertion it PANICS with the error;
otherwise it returns immediately — the underlying transaction is never
rolled back (`_ = underlying`) and no trigger runs. -/
def Store.Abort (s : Store) (txn : TxnArg) : AbortResult :=
  match underlyingTxn txn with
  | .error (.storage c m) => .panicked m
  | .error (.generic m) => .panicked m
  | .ok _ => .returned false []

/-- Observable effects of one `store.Commit` call. -/
structure CommitResult : Type where
  result : Outcome Unit
  abortIssued : Bool
  rollbackIssued : Bool
  triggersInvoked : List Nat
  committedAfter : KV
deriving DecidableEq

/-- `store.Commit`: type check; then the underlying commit; on its failure
`s.Abort` is issued (which rolls nothing back) and the error is returned;
on success (unreachable with the stub `transaction.Commit`) the triggers
would run and the transaction's view would become the committed state. -/
def Store.Commit (s : Store) (txn : TxnArg) : CommitResult :=
  match underlyingTxn txn with
  | .error e =>
      { result := .err e, abortIssued := false, rollbackIssued := false,
        triggersInvoked := [], committedAfter := s.committed }
  | .ok t =>
    match txnCommit t with
    | .ok _ =>
        { result := .ok (), abortIssued := false, rollbackIssued := false,
          triggersInvoked := s.runOnCommitTriggers, committedAfter := t.view }
    | .err e =>
        { result := .err e, abortIssued := true,
          rollbackIssued := match s.Abort txn with
            | .returned r _ => r
            | .panicked _ => false,
          triggersInvoked := [], committedAfter := s.committed }
    | .panicked m =>
        { result := .panicked m, abortIssued := false, rollbackIssued := false,
          triggersInvoked := [], committedAfter := s.committed }

/-! ### Array index validation -/

/-- Decimal digit value of a character, `none` for a non-digit. -/
def digitVal (c : Char) : Option Nat :=
  if '0' ≤ c ∧ c ≤ '9' then some (c.toNat - '0'.toNat) else none

/-- Accumulating decimal parse of a digit string. -/
def parseNatAux : List Char → Nat → Option Nat
  | [], acc => some acc
  | c :: rest, acc =>
    match digitVal c with
    | some d => parseNatAux rest (acc * 10 + d)
    | none => none

/-- Parse a non-empty all-digit string to a natural number. -/
def parseNatDigits : List Char → Option Nat
  | [] => none
  | cs => parseNatAux cs 0

/-- `strconv.Atoi`: optional sign, then a non-empty run of decimal digits,
failing (`ErrSyntax`/`ErrRange`) on anything else or on a value outside
the 64-bit `int` range. -/
def goAtoi (s : String) : Option Int :=
  let signed : Bool × List Char :=
    match s.data with
    | '+' :: rest => (false, rest)
    | '-' :: rest => (true, rest)
    | cs => (false, cs)
  match parseNatDigits signed.2 with
  | none => none
  | some n =>
    let v : Int := if signed.1 then -(n : Int) else (n : Int)
    if v < -(2 ^ 63) ∨ 2 ^ 63 - 1 < v then none else some v

/-- `validateArrayIndex`: `strconv.Atoi` on the segment, NotFound with the
integer hint on parse failure, NotFound with the range hint when the index
is outside `[0, len(arr))`, else the index. -/
def validateArrayIndex (arr : List Value) (s : String) (p : Path) :
    Except Error Int :=
  match goAtoi s with
  | none => .error (notFoundErrorHint p arrayIndexTypeMsg)
  | some idx =>
    if idx < 0 ∨ (arr.length : Int) ≤ idx then
      .error (notFoundErrorHint p outOfRangeMsg)
    else .ok idx

/-! ### Spec-side definitions for the claim about array indices -/

/-- All characters are decimal digits. -/
def allDigits : List Char → Bool
  | [] => true
  | c :: rest => (digitVal c).isSome && allDigits rest

/-- Modelled from the claim's wording: a "decimal integer" string is an
optional sign followed by one or more decimal digits, with no bound on its
magnitude. -/
def isDecimalIntegerString (s : String) : Bool :=
  match s.data with
  | [] => false
  | '+' :: rest => !rest.isEmpty && allDigits rest
  | '-' :: rest => !rest.isEmpty && allDigits rest
  | cs => allDigits cs

/-- The mathematical value denoted by a decimal integer string. -/
def decimalStringValue (s : String) : Int :=
  match s.data with
  | '+' :: rest => ((parseNatAux rest 0).getD 0 : Int)
  | '-' :: rest => -((parseNatAux rest 0).getD 0 : Int)
  | cs => ((parseNatAux cs 0).getD 0 : Int)

/-! ### Lemmas about the backend model -/

/-- A list is never byte-lexicographically below itself extended. -/
theorem bytesLt_append_self (l t : List Char) : bytesLt (l ++ t) l = false := by
  induction l with
  | nil => cases t <;> rfl
  | cons a as ih =>
    show bytesLt (a :: (as ++ t)) (a :: as) = false
    rw [bytesLt, if_neg (Nat.lt_irrefl _), if_neg (Nat.lt_irrefl _)]
    exact ih

/-- String concatenation concatenates the character data. -/
theorem strData_append (s t : String) : (s ++ t).data = s.data ++ t.data := by
  cases s
  cases t
  rfl

/-- A key never sorts strictly below its own proper prefix. -/
theorem keyLt_append_false (s t : String) : keyLt (s ++ t) s = false := by
  simp only [keyLt, strData_append, bytesLt_append_self]

/-- `Get` after `Set` of the same key yields the stored value. -/
theorem kvGet_kvSet_self (st : KV) (k : String) (v : Bytes) :
    kvGet (kvSet st k v) k = some v := by
  induction st with
  | nil => simp [kvSet, kvGet]
  | cons p rest ih =>
    obtain ⟨k', v'⟩ := p
    simp only [kvSet]
    by_cases h1 : keyLt k k' = true
    · simp [h1, kvGet]
    · simp only [h1, if_false]
      by_cases h2 : k = k'
      · simp [h2, kvGet]
      · simp only [h2, if_false]
        simp only [kvGet, List.find?] at ih ⊢
        have hne : ¬ (k' = k) := fun h => h2 h.symm
        simp only [hne, decide_eq_false, Bool.false_eq_true, if_false]
        exact ih

/-- Every entry of `Set`'s result is the new pair or an old entry. -/
theorem mem_kvSet (st : KV) (k : String) (v : Bytes) (p : String × Bytes)
    (hp : p ∈ kvSet st k v) : p = (k, v) ∨ p ∈ st := by
  induction st with
  | nil =>
    simp [kvSet] at hp
    exact Or.inl hp
  | cons q rest ih =>
    obtain ⟨k', v'⟩ := q
    simp only [kvSet] at hp
    by_cases h1 : keyLt k k' = true
    · rw [if_pos h1] at hp
      rcases List.mem_cons.mp hp with heq | hmem
      · exact Or.inl heq
      · exact Or.inr hmem
    · rw [if_neg h1] at hp
      by_cases h2 : k = k'
      · rw [if_pos h2] at hp
        rcases List.mem_cons.mp hp with heq | hmem
        · exact Or.inl heq
        · exact Or.inr (List.mem_cons_of_mem _ hmem)
      · rw [if_neg h2] at hp
        rcases List.mem_cons.mp hp with heq | hmem
        · exact Or.inr (heq ▸ List.mem_cons_self _ _)
        · rcases ih hmem with h3 | h3
          · exact Or.inl h3
          · exact Or.inr (List.mem_cons_of_mem _ h3)

/-- The new pair is an entry of `Set`'s result. -/
theorem kvSet_self_mem (st : KV) (k : String) (v : Bytes) :
    (k, v) ∈ kvSet st k v := by
  induction st with
  | nil => simp [kvSet]
  | cons q rest ih =>
    obtain ⟨k', v'⟩ := q
    simp only [kvSet]
    by_cases h1 : keyLt k k' = true
    · simp [h1]
    · simp only [h1, Bool.false_eq_true, if_false]
      by_cases h2 : k = k'
      · simp [h2]
      · simp only [h2, if_false]
        exact List.mem_cons_of_mem _ ih

/-- `Get` after `Delete` of the same key fails. -/
theorem kvGet_kvDelete_self (st : KV) (k : String) :
    kvGet (kvDelete st k) k = none := by
  simp only [kvGet, kvDelete]
  cases hf : (st.filter fun p => ¬ p.1 = k).find? fun p => p.1 = k with
  | none => rfl
  | some q =>
    have h1 := List.find?_some hf
    have h2 := List.mem_filter.mp (List.mem_of_find?_eq_some hf)
    simp at h1 h2
    exact absurd h1 h2.2

/-- An entry at or beyond the start key survives the iteration filter. -/
theorem mem_kvIterFrom (st : KV) (start : String) (p : String × Bytes)
    (hp : p ∈ st) (hk : keyLt p.1 start = false) : p ∈ kvIterFrom st start := by
  refine List.mem_filter.mpr ⟨hp, ?_⟩
  simp [hk]

/-- Every iterated entry is an entry of the view. -/
theorem kvIterFrom_subset (st : KV) (start : String) (p : String × Bytes)
    (hp : p ∈ kvIterFrom st start) : p ∈ st :=
  (List.mem_filter.mp hp).1

/-! ### Lemmas about `strings.Split` and the policy listing loop -/

/-- Splitting a slash-free character list yields the single piece itself. -/
theorem splitSlash_no_slash (l : List Char) (h : '/' ∉ l) :
    splitSlash l = [l] := by
  induction l with
  | nil => rfl
  | cons c rest ih =>
    have hc : ¬ (c = '/') := fun hcc => h (hcc ▸ List.mem_cons_self c rest)
    have hr : '/' ∉ rest := fun hm => h (List.mem_cons_of_mem _ hm)
    show splitSlash (c :: rest) = [c :: rest]
    rw [splitSlash, if_neg hc, ih hr]

/-- Splitting past a slash-free first piece peels that piece off. -/
theorem splitSlash_append (pre rest : List Char) (h : '/' ∉ pre) :
    splitSlash (pre ++ '/' :: rest) = pre :: splitSlash rest := by
  induction pre with
  | nil => simp [splitSlash]
  | cons c cs ih =>
    have hc : ¬ (c = '/') := fun hcc => h (hcc ▸ List.mem_cons_self c cs)
    have hr : '/' ∉ cs := fun hm => h (List.mem_cons_of_mem _ hm)
    show splitSlash (c :: (cs ++ '/' :: rest)) = (c :: cs) :: splitSlash rest
    rw [splitSlash, if_neg hc, ih hr]

/-- The split of a policy key of a slash-free id is exactly
`["policies", id]`. -/
theorem splitSlash_policyKey (id : String) (h : '/' ∉ id.data) :
    splitSlash (policyKey id).data = ["policies".data, id.data] := by
  have h1 : (policyKey id).data = "policies".data ++ '/' :: id.data := by
    have : (policyKey id).data = "policies/".data ++ id.data :=
      strData_append "policies/" id
    rw [this]
    rfl
  rw [h1, splitSlash_append "policies".data id.data (by decide),
    splitSlash_no_slash id.data h]

/-- If every visited key splits into at least two pieces, the listing loop
returns normally, keeps the accumulator, and contains the second piece of
every visited key. -/
theorem listPoliciesLoop_spec (l : KV) (acc : List String)
    (h : ∀ p ∈ l, 2 ≤ (splitSlash p.1.data).length) :
    ∃ ids, listPoliciesLoop l acc = .ok ids ∧
      (∀ x ∈ acc, x ∈ ids) ∧
      (∀ p ∈ l, ∀ a b bs, splitSlash p.1.data = a :: b :: bs →
        String.mk b ∈ ids) := by
  induction l generalizing acc with
  | nil =>
    exact ⟨acc, rfl, fun x hx => hx, fun p hp => absurd hp (List.not_mem_nil p)⟩
  | cons q rest ih =>
    obtain ⟨k, v⟩ := q
    have hk := h (k, v) (List.mem_cons_self _ _)
    cases hsp : splitSlash k.data with
    | nil => rw [hsp] at hk; simp at hk
    | cons a tail =>
      cases tail with
      | nil => rw [hsp] at hk; simp at hk
      | cons b bs =>
        have hrest : ∀ p ∈ rest, 2 ≤ (splitSlash p.1.data).length :=
          fun p hp => h p (List.mem_cons_of_mem _ hp)
        obtain ⟨ids, hloop, hacc, hmem⟩ := ih (acc ++ [String.mk b]) hrest
        refine ⟨ids, ?_, ?_, ?_⟩
        · simp only [listPoliciesLoop, hsp]
          exact hloop
        · intro x hx
          exact hacc x (List.mem_append_left _ hx)
        · intro p hp a2 b2 bs2 hsp2
          rcases List.mem_cons.mp hp with heq | hmem2
          · subst heq
            dsimp only at hsp2
            rw [hsp] at hsp2
            have hb : b = b2 := (List.cons.inj (List.cons.inj hsp2).2).1
            rw [← hb]
            exact hacc (String.mk b)
              (List.mem_append_right _ (List.mem_cons_self _ _))
          · exact hmem p hmem2 a2 b2 bs2 hsp2

/-! ### Concrete fixtures -/

/-- A store instance with empty committed state and no registered triggers. -/
def storeA : Store := { sid := 0, committed := [], triggers := [], nextHandle := 0 }

/-- A second, distinct store instance over the same backend engine. -/
def storeB : Store := { sid := 1, committed := [], triggers := [], nextHandle := 0 }

/-- A fresh transaction created by `storeA`. -/
def txnA : Txn := Store.NewTransaction storeA

/-! ### Claim theorems -/

/-- C1: the Write/Read round-trip does not hold on this code — `store.Read`
unconditionally returns the plain error `Not Implemented` for every store
state, transaction and path, so no Read ever returns the value stored by a
preceding Write. -/
theorem C1_read_always_not_implemented (s : Store) (t : Txn) (p : Path) :
    Store.Read s (.tikv t) p = .err (.generic "Not Implemented") := rfl

/-- C2: when the underlying transaction commit fails, `store.Commit` issues
`Abort` on that transaction, invokes no trigger, leaves the committed state
unchanged, and returns exactly the underlying error to the caller. -/
theorem C2_commit_failure_aborts_and_surfaces (s : Store) (t : Txn) (e : Error)
    (h : txnCommit t = .err e) :
    Store.Commit s (.tikv t) =
      { result := .err e, abortIssued := true, rollbackIssued := false,
        triggersInvoked := [], committedAfter := s.committed } := by
  simp only [txnCommit] at h
  injection h with he
  rw [← he]
  rfl

/-- C2 witness: the commit-failure path evaluated on a concrete store and
transaction. -/
theorem C2_witness :
    Store.Commit storeA (.tikv txnA) =
      { result := .err (.generic "Not Implemented"), abortIssued := true,
        rollbackIssued := false, triggersInvoked := [], committedAfter := [] } :=
  C2_commit_failure_aborts_and_surfaces storeA txnA (.generic "Not Implemented") rfl

/-- C3: evaluation at the failing backend state — the listing iterates from
`policies/` with no upper bound, so the key `q/x`, entirely outside the
policy prefix, contributes the spurious id `x` (which is stored under no
`policies/` key). -/
theorem C3_listing_includes_key_outside_prefix :
    Store.ListPolicies storeA (.tikv ⟨0, [("policies/p1", [1]), ("q/x", [2])]⟩) =
      .ok ["p1", "x"] ∧
    kvGet [("policies/p1", [1]), ("q/x", [2])] (policyKey "x") = none :=
  ⟨by decide, by decide⟩

/-- C4: a `Remove` Write at the empty (root) path fails with an
InvalidPatch error whose message is `root cannot be removed`, for every
document state and value argument. -/
theorem C4_remove_root_invalid_patch (s : Store) (t : Txn) (v : Value) :
    Store.writeRoot s (.tikv t) .remove v =
      .err (.storage .InvalidPatchErr "root cannot be removed") := rfl

/-- C5: evaluation at the failing input — a `Replace` Write of an object at
the root succeeds (and a non-object is rejected with `root must be
object`), but the subsequent Read of the root returns the plain error
`Not Implemented` instead of the written value. -/
theorem C5_replace_root_then_read_fails :
    Store.writeRoot storeA (.tikv txnA) .replace (Value.obj []) = .ok () ∧
    Store.writeRoot storeA (.tikv txnA) .replace (Value.num 1) =
      .err (.storage .InvalidPatchErr "root must be object") ∧
    Store.Read storeA (.tikv txnA) [] = .err (.generic "Not Implemented") :=
  ⟨rfl, rfl, rfl⟩

/-- C6: no trigger is ever invoked — `store.Commit` always fails (the
underlying commit is a stub error), even right after a registration, so the
`OnCommit` dispatch is unreachable; `Abort` also invokes no trigger. -/
theorem C6_triggers_never_fire (s : Store) (t : Txn) :
    (Store.Commit s (.tikv t)).triggersInvoked = [] ∧
    (Store.Commit s (.tikv t)).result = .err (.generic "Not Implemented") ∧
    (Store.Commit (Store.Register s).1 (.tikv t)).triggersInvoked = [] ∧
    Store.Abort s (.tikv t) = .returned false [] :=
  ⟨rfl, rfl, rfl, rfl⟩

/-- C7 counterexample: for the id `a/b` the claimed sequence fails — the
listing splits each key on EVERY slash and takes the second piece, so it
returns `a` and does not include `a/b`, although GetPolicy still finds it. -/
theorem C7_counterexample_slash_id :
    Store.UpsertPolicy storeA (.tikv txnA) "a/b" [1] =
      .ok ⟨0, [("policies/a/b", [1])]⟩ ∧
    Store.GetPolicy storeA (.tikv ⟨0, [("policies/a/b", [1])]⟩) "a/b" = .ok [1] ∧
    Store.ListPolicies storeA (.tikv ⟨0, [("policies/a/b", [1])]⟩) = .ok ["a"] ∧
    "a/b" ∉ (["a"] : List String) :=
  ⟨by decide, by decide, by decide, by decide⟩

/-- C7 (amended): for every policy id containing no slash and every byte
sequence, within one active transaction all of whose backend keys contain a
slash, UpsertPolicy followed by GetPolicy returns the bytes, ListPolicies
includes the id, and after DeletePolicy a subsequent GetPolicy fails with a
NotFound error. -/
theorem C7_policy_crud_amended (s : Store) (t : Txn) (id : String) (bs : Bytes)
    (hid : '/' ∉ id.data)
    (hview : ∀ p ∈ t.view, 2 ≤ (splitSlash p.1.data).length) :
    Store.UpsertPolicy s (.tikv t) id bs = .ok (txnUpsertPolicy t id bs) ∧
    Store.GetPolicy s (.tikv (txnUpsertPolicy t id bs)) id = .ok bs ∧
    (∃ ids, Store.ListPolicies s (.tikv (txnUpsertPolicy t id bs)) = .ok ids ∧
      id ∈ ids) ∧
    Store.GetPolicy s (.tikv (txnDeletePolicy (txnUpsertPolicy t id bs) id)) id =
      .err (policyNotFoundError id) := by
  refine ⟨rfl, ?_, ?_, ?_⟩
  · show txnGetPolicy (txnUpsertPolicy t id bs) id = .ok bs
    simp [txnGetPolicy, txnUpsertPolicy, kvGet_kvSet_self]
  · show ∃ ids, txnListPolicies (txnUpsertPolicy t id bs) = .ok ids ∧ id ∈ ids
    have hsplit : splitSlash (policyKey id).data = ["policies".data, id.data] :=
      splitSlash_policyKey id hid
    have hall : ∀ p ∈ kvIterFrom (kvSet t.view (policyKey id) bs) "policies/",
        2 ≤ (splitSlash p.1.data).length := by
      intro p hp
      rcases mem_kvSet _ _ _ _ (kvIterFrom_subset _ _ _ hp) with heq | hmem
      · rw [heq]
        dsimp only
        rw [hsplit]
        exact Nat.le.refl
      · exact hview p hmem
    obtain ⟨ids, hloop, _, hsecond⟩ :=
      listPoliciesLoop_spec (kvIterFrom (kvSet t.view (policyKey id) bs) "policies/") [] hall
    refine ⟨ids, hloop, ?_⟩
    have hkeymem : (policyKey id, bs) ∈
        kvIterFrom (kvSet t.view (policyKey id) bs) "policies/" := by
      refine mem_kvIterFrom _ _ _ (kvSet_self_mem _ _ _) ?_
      show keyLt ("policies/" ++ id) "policies/" = false
      exact keyLt_append_false "policies/" id
    have := hsecond (policyKey id, bs) hkeymem "policies".data id.data [] hsplit
    exact this
  · show txnGetPolicy (txnDeletePolicy (txnUpsertPolicy t id bs) id) id =
      .err (policyNotFoundError id)
    simp [txnGetPolicy, txnDeletePolicy, kvGet_kvDelete_self]

/-- C7 witness: the amended policy round-trip evaluated at id `p1` and
bytes `[2]` in a fresh transaction. -/
theorem C7_witness :
    Store.UpsertPolicy storeA (.tikv txnA) "p1" [2] =
      .ok (txnUpsertPolicy txnA "p1" [2]) ∧
    Store.GetPolicy storeA (.tikv (txnUpsertPolicy txnA "p1" [2])) "p1" = .ok [2] ∧
    (∃ ids, Store.ListPolicies storeA (.tikv (txnUpsertPolicy txnA "p1" [2])) =
      .ok ids ∧ "p1" ∈ ids) ∧
    Store.GetPolicy storeA
      (.tikv (txnDeletePolicy (txnUpsertPolicy txnA "p1" [2]) "p1")) "p1" =
      .err (policyNotFoundError "p1") :=
  C7_policy_crud_amended storeA txnA "p1" [2] (by decide)
    (fun p hp => absurd hp (List.not_mem_nil p))

/-- C8 counterexample: a `*transaction` handle produced by a DIFFERENT
store instance passes the type assertion, so the call succeeds instead of
failing with an InvalidTransaction error. -/
theorem C8_counterexample_other_store_txn :
    (Store.NewTransaction storeB).producer ≠ storeA.sid ∧
    Store.UpsertPolicy storeA (.tikv (Store.NewTransaction storeB)) "p" [1] =
      .ok ⟨1, [("policies/p", [1])]⟩ :=
  ⟨by decide, by decide⟩

/-- C8 (amended): a transaction handle whose dynamic type is not this
implementation's transaction type makes Read, Write, Commit and all policy
operations return an InvalidTransaction error, while `Abort` panics with
that error instead of returning it; a handle of the right type is accepted
regardless of which store produced it. -/
theorem C8_amended_foreign_type_rejected (s : Store) (n : String) (p : Path)
    (op : PatchOp) (v : Value) (id : String) (bs : Bytes) :
    Store.Read s (.foreign n) p = .err (invalidTxnError n) ∧
    Store.writeRoot s (.foreign n) op v = .err (invalidTxnError n) ∧
    (Store.Commit s (.foreign n)).result = .err (invalidTxnError n) ∧
    Store.ListPolicies s (.foreign n) = .err (invalidTxnError n) ∧
    Store.GetPolicy s (.foreign n) id = .err (invalidTxnError n) ∧
    Store.UpsertPolicy s (.foreign n) id bs = .err (invalidTxnError n) ∧
    Store.DeletePolicy s (.foreign n) id = .err (invalidTxnError n) ∧
    Store.Abort s (.foreign n) = .panicked ("unexpected transaction type " ++ n) :=
  ⟨rfl, rfl, rfl, rfl, rfl, rfl, rfl, rfl⟩

/-- C9 counterexample: the segment `9223372036854775808` is a decimal
integer (value `2^63`) outside `[0, 1)`, yet `validateArrayIndex` fails
with the `array index must be integer` hint — `strconv.Atoi` overflows the
64-bit int range — where the claim requires the `array index out of range`
hint. -/
theorem C9_counterexample_huge_index :
    isDecimalIntegerString "9223372036854775808" = true ∧
    ¬ (0 ≤ decimalStringValue "9223372036854775808" ∧
        decimalStringValue "9223372036854775808" < ([Value.null].length : Int)) ∧
    validateArrayIndex [Value.null] "9223372036854775808" ["a"] =
      .error (notFoundErrorHint ["a"] arrayIndexTypeMsg) ∧
    notFoundErrorHint ["a"] arrayIndexTypeMsg ≠
      notFoundErrorHint ["a"] outOfRangeMsg :=
  ⟨by decide, by decide, rfl, by decide⟩

/-- C9 (amended): validating an array segment fails NotFound with the
`array index must be integer` hint when `strconv.Atoi` rejects the string
(not a decimal integer representable in the 64-bit int type), fails
NotFound with the `array index out of range` hint when the parsed index is
outside `[0, length)`, and otherwise returns the parsed index. -/
theorem C9_validate_array_index_amended (arr : List Value) (s : String) (p : Path) :
    (goAtoi s = none →
      validateArrayIndex arr s p = .error (notFoundErrorHint p arrayIndexTypeMsg)) ∧
    (∀ i : Int, goAtoi s = some i → (i < 0 ∨ (arr.length : Int) ≤ i) →
      validateArrayIndex arr s p = .error (notFoundErrorHint p outOfRangeMsg)) ∧
    (∀ i : Int, goAtoi s = some i → 0 ≤ i → i < (arr.length : Int) →
      validateArrayIndex arr s p = .ok i) := by
  refine ⟨?_, ?_, ?_⟩
  · intro h
    simp [validateArrayIndex, h]
  · intro i h hrange
    simp only [validateArrayIndex, h]
    rw [if_pos hrange]
  · intro i h h0 hlen
    simp only [validateArrayIndex, h]
    rw [if_neg]
    intro hc
    rcases hc with hlt | hle
    · exact absurd h0 (not_le.mpr hlt)
    · exact absurd hlen (not_lt.mpr hle)

/-- C9 witness: the three branches of the amended statement evaluated at
concrete segments. -/
theorem C9_witness :
    validateArrayIndex [Value.null] "x" [] =
      .error (notFoundErrorHint [] arrayIndexTypeMsg) ∧
    validateArrayIndex [Value.null] "5" [] =
      .error (notFoundErrorHint [] outOfRangeMsg) ∧
    validateArrayIndex [Value.null, Value.null] "1" [] = .ok 1 :=
  ⟨(C9_validate_array_index_amended [Value.null] "x" []).1 rfl,
   (C9_validate_array_index_amended [Value.null] "5" []).2.1 5 rfl
     (Or.inr (by decide)),
   (C9_validate_array_index_amended [Value.null, Value.null] "1" []).2.2 1 rfl
     (by decide) (by decide)⟩

/-- C10: `store.Abort` on a transaction of this store returns without
issuing a backend rollback and without invoking any trigger (the committed
state cannot change — `Abort` performs no backend call at all, where the
claim requires an unconditional rollback). -/
theorem C10_abort_no_rollback_no_triggers (s : Store) (t : Txn) :
    Store.Abort s (.tikv t) = .returned false [] := rfl

end Tikv
